import Mathlib

/-!
Verification of pairing-friendly-curve generators.

Shallow embedding of the repository's number-theoretic core
(`utils.py`, `barreto_naehrig.py`, `cocks_pinch.py`, `WIP/mnt.py`,
`WIP/complex_multiplication.py`).  Python/Sage integers are modelled as
`ℤ`/`ℕ`, exact Sage rationals as `ℚ`, unbounded `while` loops by explicit
fuel (a result of `none` / `fuelOut` means only that the given fuel was
exhausted), and calls into the Sage library (elliptic-curve arithmetic,
Hilbert class polynomials, random sampling) by explicitly passed
capability structures or streams of sampled values, mirroring the spec's
"external collaborator" boundary.  Python's `%` on integers agrees with
`Int.emod` for positive moduli, and both agree on being zero for any
modulus; Python `int()` on an exact rational truncates towards zero.
-/

namespace PairingFriendly

/-! ## Basic arithmetic helpers (Sage capabilities used by the repository)

All helpers are structurally recursive so that the kernel can evaluate
them inside `decide` proofs. -/

/-- Floor square root of a natural number (largest `k` with `k * k ≤ n`),
as computed by Sage's exact `sqrt`/`floor` on nonnegative integers. -/
def isqrtNat (n : ℕ) : ℕ :=
  (List.range (n + 1)).foldl (fun acc k => if k * k ≤ n then k else acc) 0

/-- Floor square root of a nonnegative integer. -/
def intSqrt (z : ℤ) : ℤ := (isqrtNat z.toNat : ℤ)

/-- Sage `is_square` on natural numbers. -/
def isSquareNat (n : ℕ) : Bool := isqrtNat n * isqrtNat n == n

/-- Sage `is_square` on integers (negative integers are not squares). -/
def isSquareZ (z : ℤ) : Bool := decide (0 ≤ z) && isSquareNat z.toNat

/-- Sage `is_prime` on natural numbers, by trial division. -/
def natPrime (n : ℕ) : Bool :=
  decide (2 ≤ n) && (List.range n).all (fun d => decide (d < 2) || decide (n % d ≠ 0))

/-- Sage `is_prime` on integers (negative integers are not prime). -/
def intPrime (z : ℤ) : Bool := decide (0 < z) && natPrime z.toNat

/-- Sage `is_prime` on an exact rational (true only for a prime integer).
Used by the MNT generator on `q = 4*l^2 + 1` where `l` is an exact rational. -/
def isPrimeQ (q : ℚ) : Bool := q.den == 1 && intPrime q.num

/-- Sage `is_squarefree` on natural numbers. -/
def natSquarefree (n : ℕ) : Bool :=
  decide (n ≠ 0) && (List.range (n + 1)).all (fun d => decide (d < 2) || decide (n % (d * d) ≠ 0))

/-- Whether `a` is a square in the ring `Z/D` (Sage
`is_square(IntegerModRing(D)(a))`), by exhaustive search. -/
def hasSqrtMod (a : ℤ) (D : ℕ) : Bool :=
  (List.range D).any (fun x => decide ((x * x) % D = (a.emod (D : ℤ)).toNat))

/-- Python `int()` applied to an exact rational: truncation towards zero
(the numerator `ediv` by the positive denominator is floor division, so we
adjust on negative non-integers).  Equal to `q.num / q.den` rounded
towards zero. -/
def pyTrunc (q : ℚ) : ℤ :=
  if 0 ≤ q.num then q.num / (q.den : ℤ) else -((-q.num) / (q.den : ℤ))

/-- Python `int.bit_length`, structurally (fuel `n + 1` dominates the
number of halvings). -/
def bitLenAux : ℕ → ℕ → ℕ
  | 0, _ => 0
  | fuel + 1, n => if n = 0 then 0 else bitLenAux fuel (n / 2) + 1

/-- Python `int.bit_length` of an integer. -/
def bitLength (z : ℤ) : ℕ := bitLenAux (z.natAbs + 1) z.natAbs

/-! ## Kronecker symbol (Sage `kronecker`)

Defined, as in the mathematical definition Sage implements, as the product
of Legendre-style factors over the prime factorisation of the (absolute
value of the) lower argument, with the supplementary factor at `2` and the
sign factor at `-1`.  The factorisation is computed by structurally
recursive trial division so the kernel can evaluate it. -/

/-- Smallest divisor `≥ 2` of `n`, if any. -/
def leastDiv (n : ℕ) : Option ℕ := ((List.range (n + 1)).drop 2).find? (fun d => n % d = 0)

/-- Prime factor list (with multiplicity) of `n`, by trial division;
fuel `n` suffices since each extracted factor is `≥ 2`. -/
def factorList : ℕ → ℕ → List ℕ
  | 0, _ => []
  | fuel + 1, n =>
    if n ≤ 1 then []
    else
      match leastDiv n with
      | none => []
      | some d => d :: factorList fuel (n / d)

/-- Kronecker symbol at `2`: `0` for even `a`, `1` for `a ≡ ±1 (mod 8)`,
`-1` otherwise. -/
def kron2 (a : ℤ) : ℤ :=
  if a.emod 2 = 0 then 0
  else if a.emod 8 = 1 ∨ a.emod 8 = 7 then 1 else -1

/-- Legendre symbol `(a / p)` for an odd prime `p`, by exhaustive
quadratic-residue search. -/
def legendreOdd (a : ℤ) (p : ℕ) : ℤ :=
  let r := (a.emod (p : ℤ)).toNat
  if r = 0 then 0
  else if (List.range p).any (fun x => decide ((x * x) % p = r)) then 1 else -1

/-- Kronecker symbol `(a / n)` for arbitrary integers, as in Sage's
`kronecker`: multiplicative over the factorisation of `|n|`, with
`(a / 2) = kron2 a`, `(a / -1) = sign a`, `(a / 0) = 1` iff `a = ±1`. -/
def kron (a n : ℤ) : ℤ :=
  if n = 0 then (if a.natAbs = 1 then 1 else 0)
  else
    let s : ℤ := if n < 0 ∧ a < 0 then -1 else 1
    s * ((factorList n.natAbs n.natAbs).map
      (fun p => if p = 2 then kron2 a else legendreOdd a p)).prod

/-! ## Pell solvers (`WIP/mnt.py`, `pell_solve_1` and `pell_solve_2`)

`pell_solve_1` runs the continued-fraction expansion of `√D` with the
recurrences `P_i, Q_i, a_i` and convergents `G_i, B_i`, stopping at the
first odd `i` with `Q_i = 1`; the `while True` loop is modelled with fuel.
All quantities in the loop are integers in the source (`(D - P_i²)/Q_i₋₁`
is an exact Sage division, always integral along the recurrence, modelled
by exact integer division, and `floor((P_i + √D)/Q_i)` equals
`(P_i + ⌊√D⌋).fdiv Q_i` for the positive `Q_i` of the recurrence since
`√D` is irrational).

The final scan turns an index `j` with `(G_j² - D·B_j²)/m` a square `f²`
in `ℚ` into the appended pair `(f·G_j, f·B_j)`.  With
`t = G_j² - D·B_j²`, the exact rational `t/m` is a square in `ℚ` iff
`t·m` is a square in `ℤ`, and then `f = √(t·m)/|m|`; the raw solver
returns the integer data `(√(t·m)·G_j, √(t·m)·B_j, |m|)` and
`pell_solve_1` interprets each triple `(xn, yn, d)` as the pair of exact
rationals `(xn/d, yn/d)` that the source appends. -/

/-- Continued-fraction loop of `pell_solve_1`.  Arguments: fuel, `i`,
`P[i]`, `Q[i]`, `a[i]`, `G[i-1]`, `G[i]`, `B[i-1]`, `B[i]`, and the list
of pairs `(G_j, B_j)` for `j = i, i-1, …, 1`.  Returns the pairs for
`j ∈ [1, i)` (in increasing `j`) at the break `Q_i = 1 ∧ i` odd. -/
def pell_cf_loop (D : ℤ) :
    ℕ → ℕ → ℤ → ℤ → ℤ → ℤ → ℤ → ℤ → ℤ → List (ℤ × ℤ) → Option (List (ℤ × ℤ))
  | 0, _, _, _, _, _, _, _, _, _ => none
  | fuel + 1, i, p1, q1, a1, gp, gc, bp, bc, pairs =>
    let p2 := a1 * q1 - p1
    let q2 := (D - p2 ^ 2) / q1
    let a2 := Int.fdiv (p2 + intSqrt D) q2
    let b2 := a2 * bc + bp
    let g2 := a2 * gc + gp
    let pairs2 := (g2, b2) :: pairs
    if q2 = 1 ∧ (i + 1) % 2 = 1 then some pairs2.reverse.dropLast
    else pell_cf_loop D fuel (i + 1) p2 q2 a2 gc g2 bc b2 pairs2

/-- Algorithm 1 Pell equation solver, integer core.  Precondition
violations (`m = 0`, `D ≤ m²`, `D` square — Python `assert`s) and fuel
exhaustion give `none`.  Each returned triple `(xn, yn, d)` denotes the
solution pair `(xn/d, yn/d)` appended by the source. -/
def pell_solve_1_raw (D m : ℤ) (fuel : ℕ) : Option (List (ℤ × ℤ × ℤ)) :=
  if m = 0 ∨ D ≤ m * m ∨ isSquareZ D then none
  else
    match pell_cf_loop D fuel 1 0 1 (intSqrt D) 1 (intSqrt D) 0 1 [(intSqrt D, 1)] with
    | none => none
    | some pairs => some (pairs.filterMap (fun gb =>
        let t := gb.1 ^ 2 - D * gb.2 ^ 2
        if isSquareZ (t * m) then
          some (intSqrt (t * m) * gb.1, intSqrt (t * m) * gb.2, (m.natAbs : ℤ))
        else none))

/-- Interpretation of a raw solution triple as the pair of exact rationals
`(f·G_j, f·B_j)` appended by `pell_solve_1`. -/
def tripleToQ (s : ℤ × ℤ × ℤ) : ℚ × ℚ := ((s.1 : ℚ) / (s.2.2 : ℚ), (s.2.1 : ℚ) / (s.2.2 : ℚ))

/-- `pell_solve_1(D, m)`: the list of pairs `(f·G_j, f·B_j)` (exact Sage
rationals) for the indices `j` in the scanned range whose
`(G_j² - D·B_j²)/m` is a square `f²`. -/
def pell_solve_1 (D m : ℤ) (fuel : ℕ) : Option (List (ℚ × ℚ)) :=
  (pell_solve_1_raw D m fuel).map (List.map tripleToQ)

/-- Floor of `√q` for a nonnegative rational `q`:
`⌊√(n/d)⌋ = ⌊⌊√(n·d)⌋/d⌋`.  (For negative `q` the source's symbolic
square root is imaginary and `floor`/`ceil` would fail; this
clamped model is only exercised with nonnegative arguments.) -/
def qSqrtFloor (q : ℚ) : ℤ := ((isqrtNat (q.num.toNat * q.den) / q.den : ℕ) : ℤ)

/-- Ceiling of `√q` for a nonnegative rational `q`. -/
def qSqrtCeil (q : ℚ) : ℤ :=
  if ((qSqrtFloor q : ℚ)) ^ 2 = q then qSqrtFloor q else qSqrtFloor q + 1

/-- Algorithm 2 Pell equation solver (`pell_solve_2`).  Obtains the
fundamental solution `(u, v)` of `x² - D·y² = 1` from `pell_solve_1`
(Python would raise `IndexError` on an empty list, modelled by `none`),
derives the bounds `L1, L2`, and scans integer `y`, appending `(x, y)`
and, unless the associate-class residual check holds, also `(-x, y)`.
Precondition violations (`m = 0`, `D > m²`, `D` square) give `none`. -/
def pell_solve_2 (D m : ℤ) (fuel : ℕ) : Option (List (ℤ × ℤ)) :=
  if m = 0 ∨ m * m < D ∨ isSquareZ D then none
  else
    match pell_solve_1 D 1 fuel with
    | none => none
    | some [] => none
    | some ((u, v) :: _) =>
      let lo : ℤ := if 0 < m then 0 else qSqrtCeil ((-(m : ℚ)) / (D : ℚ))
      let hi : ℤ :=
        if 0 < m then qSqrtFloor ((m : ℚ) * (u - 1) / (2 * (D : ℚ)))
        else qSqrtFloor ((-(m : ℚ)) * (v + 1) / (2 * (D : ℚ)))
      let ys := (List.range (hi + 1 - lo).toNat).map (fun k => lo + k)
      some (ys.flatMap (fun y =>
        let x2 := m + D * y ^ 2
        if isSquareZ x2 then
          let x := intSqrt x2
          if ¬((-x * x - y * y * D).emod m = 0 ∧ (2 * y * x).emod m = 0) then
            [(x, y), (-x, y)]
          else [(x, y)]
        else []))

/-! ## Claims C1 and C5: Pell solver outputs -/

/-- Raw evaluation of `pell_solve_1(13, 1)`: the continued-fraction
expansion of `√13` stops at `i = 11`, and the scanned indices with square
`(G_j² - 13·B_j²)/1` are `j = 4, 6` (value `4 = 2²`) and `j = 10`
(value `1`).  Kernel-checked. -/
theorem pell_solve_1_raw_13_1 :
    pell_solve_1_raw 13 1 40 = some [(22, 6, 1), (238, 66, 1), (649, 180, 1)] := by
  decide

/-- C1: refuted by the code.  The list returned by `pell_solve_1(13, 1)`
contains the pair `(22, 6)` = `(f·G_4, f·B_4)` with `f = 2` (since
`(G_4² - 13·B_4²)/1 = 4` is a perfect square), but
`22² - 13·6² = 16 ≠ 1 = m`: the solver multiplies by `f` where its own
docstring ("Output: all minimal positive solutions (x, y) :
x^2 - Dy^2 = m") and the underlying Karabina–Teske algorithm require the
pair `(G_j/f, B_j/f)`. -/
theorem pell_solve_1_bug_13_1 :
    pell_solve_1 13 1 40 =
      some [((22 : ℚ), (6 : ℚ)), ((238 : ℚ), (66 : ℚ)), ((649 : ℚ), (180 : ℚ))] ∧
      ¬((22 : ℚ) ^ 2 - 13 * (6 : ℚ) ^ 2 = 1) := by
  constructor
  · rw [pell_solve_1, pell_solve_1_raw_13_1]
    norm_num [tripleToQ]
  · norm_num

/-- C5: confirmed.  `pell_solve_1(2, 1)` returns exactly `[(3, 2)]`, so in
particular it includes `(3, 2)`, the minimal solution of
`x² - 2·y² = 1`. -/
theorem pell_solve_1_2_1 :
    pell_solve_1 2 1 30 = some [((3 : ℚ), (2 : ℚ))] := by
  have hraw : pell_solve_1_raw 2 1 30 = some [(3, 2, 1)] := by decide
  rw [pell_solve_1, hraw]
  norm_num [tripleToQ]

/-! ## MNT generator (`WIP/mnt.py`, `gen_curve`)

`gen_curve(N, z)` scans discriminants `D = 9, 33, 57, …, ≤ 3z`, and for
each usable `D` walks two Pell orbits (multiplying by the fundamental
unit `(u, v)`), looking for an exact rational `l = (x - remainder)/6`
with `(N-3)/2 ≤ log2(l) < (N-2)/2` and `q = 4l²+1`, `n = 4l²-rem·2l+1`
both prime, all while `|x| ≤ 2^⌈N/2⌉`.  The `log2` guard on a positive
rational `l` is equivalent to `2^(N-3) ≤ l² < 2^(N-2)`, which is how it
is embedded; Python's `math.log2` raises `ValueError` on `l ≤ 0`
(modelled as `crashed`; the second branch breaks first when `l < 0`).
`remainder` is `int(x) % 6` adjusted to `-1` when it is `5`, computed
once per branch from the branch's initial `x`.  The outcome `exited`
means the branch's `while` loop finished without returning. -/

inductive OrbitRes where
  | found (q n d : ℚ)
  | exited
  | crashed
  | fuelOut

/-- Whether an orbit outcome is a returned parameter triple. -/
def OrbitRes.isFound : OrbitRes → Bool
  | found _ _ _ => true
  | _ => false

/-- The `remainder` computation of `gen_curve`: `int(x) % 6`, replaced by
`-1` when it equals `5`. -/
def pyRemAdj (x : ℚ) : ℤ :=
  if (pyTrunc x).emod 6 = 5 then -1 else (pyTrunc x).emod 6

/-- First orbit `while` loop of `gen_curve` (lines 111–121): step
`(x, y) ← (x·u + y·v·D, x·v + u·y)`. -/
def mnt_orbit1 (N : ℕ) (D u v rem : ℚ) : ℕ → ℚ → ℚ → OrbitRes
  | 0, _, _ => .fuelOut
  | fuel + 1, x, y =>
    if |x| ≤ 2 ^ ((N + 1) / 2) then
      if (x - rem) / 6 ≤ 0 then .crashed
      else if 2 ^ (N - 3) ≤ ((x - rem) / 6) ^ 2 ∧ ((x - rem) / 6) ^ 2 < 2 ^ (N - 2) then
        if isPrimeQ (4 * ((x - rem) / 6) ^ 2 + 1) ∧
            isPrimeQ (4 * ((x - rem) / 6) ^ 2 - rem * 2 * ((x - rem) / 6) + 1) then
          .found (4 * ((x - rem) / 6) ^ 2 + 1)
            (4 * ((x - rem) / 6) ^ 2 - rem * 2 * ((x - rem) / 6) + 1) (D / 3)
        else mnt_orbit1 N D u v rem fuel (x * u + y * v * D) (x * v + u * y)
      else mnt_orbit1 N D u v rem fuel (x * u + y * v * D) (x * v + u * y)
    else .exited

/-- Second orbit `while` loop of `gen_curve` (lines 128–140): breaks when
`l < 0`, steps `(x, y) ← (x·u - y·v·D, u·y - x·v)`. -/
def mnt_orbit2 (N : ℕ) (D u v rem : ℚ) : ℕ → ℚ → ℚ → OrbitRes
  | 0, _, _ => .fuelOut
  | fuel + 1, x, y =>
    if |x| ≤ 2 ^ ((N + 1) / 2) then
      if (x - rem) / 6 < 0 then .exited
      else if (x - rem) / 6 = 0 then .crashed
      else if 2 ^ (N - 3) ≤ ((x - rem) / 6) ^ 2 ∧ ((x - rem) / 6) ^ 2 < 2 ^ (N - 2) then
        if isPrimeQ (4 * ((x - rem) / 6) ^ 2 + 1) ∧
            isPrimeQ (4 * ((x - rem) / 6) ^ 2 - rem * 2 * ((x - rem) / 6) + 1) then
          .found (4 * ((x - rem) / 6) ^ 2 + 1)
            (4 * ((x - rem) / 6) ^ 2 - rem * 2 * ((x - rem) / 6) + 1) (D / 3)
        else mnt_orbit2 N D u v rem fuel (x * u - y * v * D) (u * y - x * v)
      else mnt_orbit2 N D u v rem fuel (x * u - y * v * D) (u * y - x * v)
    else .exited

/-- The two orbit branches of `gen_curve` for one discriminant, from the
first Pell solution `(x0, y0)` and the fundamental unit `(u, v)`: branch 1
starts at `(x0, y0)`, branch 2 at `(x0·u - y0·v·D, u·y0 - x0·v)`; each is
entered only when its adjusted remainder is `±1`. -/
def mnt_branches (N fuel : ℕ) (D u v x0 y0 : ℚ) : OrbitRes :=
  match (if pyRemAdj x0 = 1 ∨ pyRemAdj x0 = -1
      then mnt_orbit1 N D u v ((pyRemAdj x0 : ℤ) : ℚ) fuel x0 y0 else .exited) with
  | .found q n d => .found q n d
  | .crashed => .crashed
  | .fuelOut => .fuelOut
  | .exited =>
    if pyRemAdj (x0 * u - y0 * v * D) = 1 ∨ pyRemAdj (x0 * u - y0 * v * D) = -1 then
      mnt_orbit2 N D u v ((pyRemAdj (x0 * u - y0 * v * D) : ℤ) : ℚ) fuel
        (x0 * u - y0 * v * D) (u * y0 - x0 * v)
    else .exited

/-- One iteration of the `for D in range(9, 3z+1, 24)` loop of
`gen_curve`: the squarefree/square/quadratic-residue `continue` tests
(every scanned `D` is divisible by 3, so `ZZ(D)/3` is the natural number
`D/3`), then the Pell solve (`pell_solve_1(D, -8)` for `D > 64`, else
`pell_solve_2(D, -8)`), `continue` on an empty solution list, the
fundamental unit `pell_solve_1(D, 1)[0]` (an empty list would raise
`IndexError`, modelled as `crashed`), and the two orbit branches. -/
def mnt_iter (N fuel : ℕ) (D : ℤ) : OrbitRes :=
  if !natSquarefree (D.toNat / 3) || isSquareZ D then .exited
  else if !hasSqrtMod (-2) D.toNat then .exited
  else
    match (if 64 < D then pell_solve_1 D (-8) fuel
        else (pell_solve_2 D (-8) fuel).map (List.map (fun p => ((p.1 : ℚ), (p.2 : ℚ))))) with
    | none => .fuelOut
    | some [] => .exited
    | some ((x0, y0) :: _) =>
      match pell_solve_1 D 1 fuel with
      | none => .fuelOut
      | some [] => .crashed
      | some ((u, v) :: _) => mnt_branches N fuel (D : ℚ) u v x0 y0

/-- Overall result of the MNT `gen_curve`: a returned triple `(q, n, D/3)`,
the final `return None`, a Python exception, or fuel exhaustion. -/
inductive MntRes where
  | found (q n d : ℚ)
  | noCurve
  | crashed
  | fuelOut

/-- Whether a `gen_curve` outcome is a returned parameter triple. -/
def MntRes.isFound : MntRes → Bool
  | found _ _ _ => true
  | _ => false

/-- The discriminant loop of `gen_curve`; falling off the end is
`return None`. -/
def mnt_go (N fuel : ℕ) : List ℤ → MntRes
  | [] => .noCurve
  | D :: rest =>
    match mnt_iter N fuel D with
    | .found q n d => .found q n d
    | .exited => mnt_go N fuel rest
    | .crashed => .crashed
    | .fuelOut => .fuelOut

/-- `gen_curve(N, z)` of `WIP/mnt.py`: Algorithm 3, embedding degree 6.
`range(9, 3z+1, 24)` has `(3z+15)/24` elements. -/
def mnt_gen_curve (N z fuel : ℕ) : MntRes :=
  mnt_go N fuel ((List.range' 9 ((3 * z + 15) / 24) 24).map (fun d => (d : ℤ)))

/-- Core impossibility at `N = 32`: any in-window `x` (`|x| ≤ 2^16`) gives
`l = (x - rem)/6` with `l² < 2^29`, so the `log2` guard can never hold. -/
theorem mnt_l_sq_small (x rem : ℚ) (hx : |x| ≤ 65536) (hrem : rem = 1 ∨ rem = -1) :
    ((x - rem) / 6) ^ 2 < 536870912 := by
  obtain ⟨h1, h2⟩ := abs_le.mp hx
  have hsq : (0:ℚ) ≤ (65536 - x) * (x + 65536) :=
    mul_nonneg (by linarith) (by linarith)
  rcases hrem with h | h <;> subst h <;> nlinarith [hsq]

theorem mnt_orbit1_not_found (D u v rem : ℚ) (hrem : rem = 1 ∨ rem = -1) :
    ∀ fuel x y, (mnt_orbit1 32 D u v rem fuel x y).isFound = false := by
  intro fuel
  induction fuel with
  | zero => intro x y; rfl
  | succ f ih =>
    intro x y
    rw [mnt_orbit1]
    by_cases hx : |x| ≤ (2:ℚ) ^ ((32 + 1) / 2)
    · rw [if_pos hx]
      by_cases hl : (x - rem) / 6 ≤ 0
      · rw [if_pos hl]; rfl
      · rw [if_neg hl]
        have hx2 : |x| ≤ 65536 := by norm_num at hx; exact hx
        have hguard : ¬((2:ℚ) ^ (32 - 3) ≤ ((x - rem) / 6) ^ 2 ∧
            ((x - rem) / 6) ^ 2 < 2 ^ (32 - 2)) := by
          rintro ⟨hg1, _⟩
          have hb := mnt_l_sq_small x rem hx2 hrem
          norm_num at hg1
          linarith
        rw [if_neg hguard]
        exact ih _ _
    · rw [if_neg hx]; rfl

theorem mnt_orbit2_not_found (D u v rem : ℚ) (hrem : rem = 1 ∨ rem = -1) :
    ∀ fuel x y, (mnt_orbit2 32 D u v rem fuel x y).isFound = false := by
  intro fuel
  induction fuel with
  | zero => intro x y; rfl
  | succ f ih =>
    intro x y
    rw [mnt_orbit2]
    by_cases hx : |x| ≤ (2:ℚ) ^ ((32 + 1) / 2)
    · rw [if_pos hx]
      by_cases hl : (x - rem) / 6 < 0
      · rw [if_pos hl]; rfl
      · rw [if_neg hl]
        by_cases hl0 : (x - rem) / 6 = 0
        · rw [if_pos hl0]; rfl
        · rw [if_neg hl0]
          have hx2 : |x| ≤ 65536 := by norm_num at hx; exact hx
          have hguard : ¬((2:ℚ) ^ (32 - 3) ≤ ((x - rem) / 6) ^ 2 ∧
              ((x - rem) / 6) ^ 2 < 2 ^ (32 - 2)) := by
            rintro ⟨hg1, _⟩
            have hb := mnt_l_sq_small x rem hx2 hrem
            norm_num at hg1
            linarith
          rw [if_neg hguard]
          exact ih _ _
    · rw [if_neg hx]; rfl

theorem mnt_branches_not_found (fuel : ℕ) (D u v x0 y0 : ℚ) :
    (mnt_branches 32 fuel D u v x0 y0).isFound = false := by
  have hcast : ∀ r : ℤ, r = 1 ∨ r = -1 → ((r : ℤ) : ℚ) = 1 ∨ ((r : ℤ) : ℚ) = -1 := by
    rintro r (h | h) <;> rw [h] <;> norm_num
  unfold mnt_branches
  split
  · next q n d heq =>
    exfalso
    by_cases hc : pyRemAdj x0 = 1 ∨ pyRemAdj x0 = -1
    · rw [if_pos hc] at heq
      have h2 := mnt_orbit1_not_found D u v _ (hcast _ hc) fuel x0 y0
      rw [heq] at h2
      exact Bool.noConfusion h2
    · rw [if_neg hc] at heq
      exact OrbitRes.noConfusion heq
  · next heq => rfl
  · next heq => rfl
  · next heq =>
    by_cases hc : pyRemAdj (x0 * u - y0 * v * D) = 1 ∨ pyRemAdj (x0 * u - y0 * v * D) = -1
    · rw [if_pos hc]
      exact mnt_orbit2_not_found D u v _ (hcast _ hc) fuel _ _
    · rw [if_neg hc]; rfl

theorem mnt_iter_not_found (fuel : ℕ) (D : ℤ) :
    (mnt_iter 32 fuel D).isFound = false := by
  unfold mnt_iter
  split
  · rfl
  · split
    · rfl
    · split
      · rfl
      · rfl
      · split
        · rfl
        · rfl
        · exact mnt_branches_not_found fuel _ _ _ _ _

theorem mnt_go_not_found (fuel : ℕ) : ∀ ds : List ℤ, (mnt_go 32 fuel ds).isFound = false := by
  intro ds
  induction ds with
  | nil => rfl
  | cons D rest ih =>
    rw [mnt_go]
    split
    · next q n d heq =>
      exfalso
      have h2 := mnt_iter_not_found fuel D
      rw [heq] at h2
      exact Bool.noConfusion h2
    · exact ih
    · rfl
    · rfl

/-- C2: refuted by the code.  `gen_curve(32, 500)` never returns a
parameter triple (for any amount of fuel, i.e. however long the loops
run): the `log2` success guard requires `l² ≥ 2^29`, hence
`|x| = |6·l + rem| ≥ 6·2^14.5 - 1 > 2^16`, while both orbit loops only
run while `|x| ≤ 2^⌈32/2⌉ = 2^16` — so the `return` statements are
unreachable and the function falls through to `return None`. -/
theorem mnt_gen_curve_32_500_not_found (fuel : ℕ) :
    (mnt_gen_curve 32 500 fuel).isFound = false := by
  unfold mnt_gen_curve
  exact mnt_go_not_found fuel _

/-! ## Embedding-degree check (`utils.py`, `is_embedding_degree`)

The source reads two attributes of a Sage curve: the order of its base
field and the order of its point group; a curve is modelled by exactly
that data. -/

/-- The data of a Sage elliptic curve used by `is_embedding_degree`:
`E.base_field().order()` and `E.order()`. -/
structure ECurve where
  base_field_order : ℤ
  order : ℤ

/-- `is_embedding_degree(E, k)`:
`(E.base_field().order() ** k - 1) % E.order() == 0`. -/
def is_embedding_degree (E : ECurve) (k : ℕ) : Bool :=
  (E.base_field_order ^ k - 1) % E.order == 0

/-- C3: confirmed.  `is_embedding_degree(E, k)` returns true exactly when
`(q - 1) mod n = 0` for `q = p^k` (`p` the base-field order, `n` the
stored group order), and it performs no minimality check: a curve with
`p = 7`, `n = 3` passes at `k = 2` even though it already passes at
`i = 1 < 2`. -/
theorem is_embedding_degree_divisibility_only :
    (∀ (E : ECurve) (k : ℕ),
        is_embedding_degree E k = true ↔ (E.base_field_order ^ k - 1) % E.order = 0) ∧
    (∃ (E : ECurve) (k i : ℕ), i < k ∧
        is_embedding_degree E k = true ∧ is_embedding_degree E i = true) := by
  refine ⟨fun E k => ?_, ⟨7, 3⟩, 2, 1, by norm_num, by decide, by decide⟩
  simp [is_embedding_degree]

/-! ## Curve construction from a j-invariant
(`WIP/complex_multiplication.py` lines 79–86 and `cocks_pinch.py`
lines 79–86, identical code) -/

/-- Construction of the short-Weierstrass coefficients `(a4, a6)` over
`F_p` from a j-invariant `j0` and twist parameter `c`, as in both
generators: `j0 = 0 ↦ (0, c)`; else `j0 = 1728 ↦ (c, 0)`; otherwise
`(3c²j0/(1728-j0), 2c³j0/(1728-j0))`. -/
def curve_from_j (p : ℕ) [Fact p.Prime] (j0 c : ZMod p) : ZMod p × ZMod p :=
  if j0 = 0 then (0, c)
  else if j0 = 1728 then (c, 0)
  else (3 * c ^ 2 * j0 / (1728 - j0), 2 * c ^ 3 * j0 / (1728 - j0))

/-- The spec's description of the same construction (§4.6, read as an
ordered case split, the `j0 = 0` case taking precedence): for comparison
with the code's `curve_from_j`. -/
def curve_from_j_spec_model (p : ℕ) [Fact p.Prime] (j0 c : ZMod p) : ZMod p × ZMod p :=
  if j0 = 0 then (0, c)
  else if j0 = 1728 then (c, 0)
  else (3 * c ^ 2 * j0 / (1728 - j0), 2 * c ^ 3 * j0 / (1728 - j0))

instance fact_prime_5 : Fact (Nat.Prime 5) := ⟨by norm_num⟩

/-- C9: confirmed.  For nonzero `c` the code's construction agrees with
the spec's case split, and it is a pure function of `(p, j0, c)` (the
discriminant `D` of the quadruple is not consulted): two constructions
from equal inputs give equal `(a4, a6)`. -/
theorem curve_from_j_matches_spec (p : ℕ) [Fact p.Prime] (j0 c : ZMod p)
    (hc : c ≠ 0) :
    curve_from_j p j0 c = curve_from_j_spec_model p j0 c ∧
    (∀ j1 c1 : ZMod p, j1 = j0 → c1 = c → curve_from_j p j1 c1 = curve_from_j p j0 c) := by
  refine ⟨rfl, ?_⟩
  rintro j1 c1 rfl rfl
  rfl

/-- Witness for C9 at `p = 5`, `j0 = 3`, `c = 2`. -/
theorem curve_from_j_matches_spec_witness :
    curve_from_j 5 3 2 = curve_from_j_spec_model 5 3 2 :=
  (@curve_from_j_matches_spec 5 fact_prime_5 3 2 (by decide)).1

/-! ## Cornacchia (`WIP/complex_multiplication.py`, `find_sqrt` and
`cornacchia`)

These two functions are written with `^` where the rest of the repository
uses `**`; in a plain-Python module `^` is xor, so `x ^ 2 - D` on a Sage
polynomial raises at run time (and `p ^ (.5)` on ints is a `TypeError`),
making the source crash before computing anything.  The embedding below
is of the evident intended semantics (`^` as exponentiation, as under the
Sage preparser), which is what the claim and the function's own docstring
describe.

`find_sqrt(p, D)` takes `f.roots()[0][0]` for `f = x² - D` over `GF(p)`;
Sage lists the roots through the sorted monic linear factors `x + c`
(ascending in `c`), so the roots `p - c` appear in descending order.
The float membership test `((p - t²)/d)^(.5) in ZZ` holds exactly when
the rational `(p - t²)/d` is a nonnegative perfect-square integer. -/

/-- Roots of `x² - a` over `GF(p)` in the order returned by Sage's
`roots()` (descending). -/
def roots_desc (p : ℕ) (a : ℤ) : List ℕ :=
  ((List.range p).filter (fun x => decide ((x * x) % p = (a.emod (p : ℤ)).toNat))).reverse

/-- `find_sqrt(p, D)`: the first listed root of `x² - D` over `GF(p)`
(`none` models the `IndexError` when there is no root). -/
def find_sqrt (p : ℕ) (D : ℤ) : Option ℕ := (roots_desc p D).head?

/-- Result of `cornacchia`: a returned solution, a returned `None`, a
Python exception, or fuel exhaustion. -/
inductive CornRes where
  | sol (x y : ℤ)
  | noSolution
  | crashed
  | fuelOut
  deriving DecidableEq

/-- The Euclidean remainder loop of `cornacchia`: `n, t = t, n % t` until
the new remainder `t` satisfies `t < √p` (i.e. `t² < p`); `some none`
models the `ZeroDivisionError` when `t = 0`. -/
def corn_euclid (p : ℕ) : ℕ → ℕ → ℕ → Option (Option ℕ)
  | 0, _, _ => none
  | fuel + 1, n, t =>
    if t = 0 then some none
    else if (n % t) * (n % t) < p then some (some (n % t))
    else corn_euclid p fuel t (n % t)

/-- `cornacchia(p, d)` (intended semantics): proceed only if
`(-d/p) = 1`; `t = find_sqrt(p, -d)`; Euclidean loop from `(p, t)`;
return `(t, √((p - t²)/d))` when `(p - t²)/d` is a perfect square,
else `None`. -/
def cornacchia (p : ℕ) (d : ℤ) (fuel : ℕ) : CornRes :=
  if kron (-d) (p : ℤ) = 1 then
    match find_sqrt p (-d) with
    | none => .crashed
    | some t0 =>
      match corn_euclid p fuel p t0 with
      | none => .fuelOut
      | some none => .crashed
      | some (some t) =>
        if ((p : ℤ) - (t : ℤ) ^ 2).emod d = 0 ∧ isSquareZ (((p : ℤ) - (t : ℤ) ^ 2) / d) then
          .sol (t : ℤ) (intSqrt (((p : ℤ) - (t : ℤ) ^ 2) / d))
        else .noSolution
  else .noSolution

/-- C4 (supporting theorem; the claim itself is a code bug — the source's
`^` is Python xor, so the call raises instead of returning).  Under the
intended exponentiation semantics, `cornacchia(5, 1)` returns `(2, 1)`,
which satisfies `2² + 1·1² = 5`: `find_sqrt(5, -1)` yields the root `3`
of `x² + 1`, the Euclidean loop gives `t = 5 % 3 = 2 < √5`, and
`(5 - 2²)/1 = 1` is a perfect square. -/
theorem cornacchia_intended_5_1 :
    cornacchia 5 1 10 = CornRes.sol 2 1 ∧ (2 : ℤ) ^ 2 + 1 * 1 ^ 2 = 5 := by
  constructor
  · decide
  · decide

/-! ## Discriminant search (`WIP/complex_multiplication.py`,
`choose_random_fundamental_discriminant`; `cocks_pinch.py`,
`find_fundamental_discriminant`)

Both sample `D = -Integer(Mod(int(random()*1000), r))` until
`kronecker(D, r) = 1`, reduce to the fundamental discriminant and
re-check; the CM version then `return 0`, the Cocks–Pinch version
`assert`s (raising `AssertionError`).  The stream of draws of
`int(random() * 1000)` is passed explicitly; an exhausted stream is
`none`.  The Cocks–Pinch version starts from `D = 0` before sampling. -/

/-- Largest `f` with `f² ∣ n` (for `n ≥ 1`). -/
def largestSquareDivRoot (n : ℕ) : ℕ :=
  (List.range (n + 1)).foldl (fun acc f => if f ≠ 0 ∧ (f * f) ∣ n then f else acc) 1

/-- Sage `squarefree_part` of an integer (sign preserved). -/
def squarefreePart (z : ℤ) : ℤ :=
  if z = 0 then 0 else z / ((largestSquareDivRoot z.natAbs : ℤ) ^ 2)

/-- Sage `fundamental_discriminant`: the squarefree part `d`, or `4d`
when `d % 4 ≠ 1` (Python `%`, i.e. `emod`). -/
def fundamental_discriminant (z : ℤ) : ℤ :=
  if (squarefreePart z).emod 4 = 1 then squarefreePart z else 4 * squarefreePart z

/-- The sampling loop shared by both discriminant searches: walk the
stream of draws until `kronecker(-(s mod r), r) = 1`. -/
def disc_sample_walk (r : ℤ) : List ℕ → Option ℤ
  | [] => none
  | s :: rest =>
    if kron (-((s : ℤ).emod r)) r = 1 then some (-((s : ℤ).emod r))
    else disc_sample_walk r rest

/-- `choose_random_fundamental_discriminant(r)` of
`WIP/complex_multiplication.py`: samples, reduces to the fundamental
discriminant, and returns the sentinel `0` when the re-check fails. -/
def choose_random_fundamental_discriminant (r : ℤ) (stream : List ℕ) : Option ℤ :=
  (disc_sample_walk r stream).map (fun D =>
    if kron (fundamental_discriminant D) r = 1 then fundamental_discriminant D else 0)

/-- Result of `find_fundamental_discriminant`: a returned discriminant or
a raised `AssertionError`. -/
inductive DiscRes where
  | ok (d : ℤ)
  | assertionError
  deriving DecidableEq

/-- `find_fundamental_discriminant(n)` of `cocks_pinch.py`: starts from
`D = 0`, samples, reduces, and `assert`s the re-check —
`DiscRes.assertionError` models the raised `AssertionError`. -/
def find_fundamental_discriminant (n : ℤ) (stream : List ℕ) : Option DiscRes :=
  (if kron 0 n = 1 then some 0 else disc_sample_walk n stream).map (fun D =>
    if kron (fundamental_discriminant D) n = 1 then DiscRes.ok (fundamental_discriminant D)
    else DiscRes.assertionError)

/-- C7 counterexample: at modulus `n = 2` with first draw `1`, the
sampled `D = -1` has `kronecker(-1, 2) = 1` but its fundamental
discriminant `-4` has `kronecker(-4, 2) = 0`, and the Cocks–Pinch
`find_fundamental_discriminant` raises an `AssertionError` instead of
returning the sentinel `0` that the claim asserts for both functions. -/
theorem find_fundamental_discriminant_raises :
    find_fundamental_discriminant 2 [1] = some DiscRes.assertionError := by decide

/-- C7 as amended: when the sampling loop accepts a `D` whose fundamental
reduction breaks the residue condition, the CM generator's
`choose_random_fundamental_discriminant` returns the sentinel `0`, while
the Cocks–Pinch `find_fundamental_discriminant` raises an assertion error
(the hypothesis `kron 0 r ≠ 1` says the Cocks–Pinch initial `D = 0` is
rejected, which holds for every modulus other than `±1`). -/
theorem discriminant_search_sentinel_vs_assert
    (r : ℤ) (stream : List ℕ) (D : ℤ)
    (h0 : kron 0 r ≠ 1)
    (hwalk : disc_sample_walk r stream = some D)
    (hbad : kron (fundamental_discriminant D) r ≠ 1) :
    choose_random_fundamental_discriminant r stream = some 0 ∧
    find_fundamental_discriminant r stream = some DiscRes.assertionError := by
  unfold choose_random_fundamental_discriminant find_fundamental_discriminant
  rw [if_neg h0, hwalk]
  simp [if_neg hbad]

/-- Witness for the amended C7 at `r = 2`, stream `[1]`, `D = -1`. -/
theorem discriminant_search_sentinel_vs_assert_witness :
    choose_random_fundamental_discriminant 2 [1] = some 0 ∧
    find_fundamental_discriminant 2 [1] = some DiscRes.assertionError :=
  discriminant_search_sentinel_vs_assert 2 [1] (-1) (by decide) (by decide) (by decide)

/-! ## CM generator (`WIP/complex_multiplication.py`, `gen_curve`)

The three `assert`s come first: `is_prime(p)`, `is_prime(n)`, and the
Hasse bound `abs(r·n - (p+1)) ≤ 2·sqrt(p)` (`math.sqrt`; modelled by the
exact equivalent `(r·n - (p+1))² ≤ 4p`).  The subsequent search — Hilbert
class polynomial root, random twist parameters `c`, random points and
their orders — goes through the Sage library, modelled by a capability
structure: `any_root D p` is `hilbert_class_polynomial(-D).any_root(GF(p))`
(`none` models the raised `ValueError` when there is no root), `rand_c i`
the `i`-th draw of `GF(p).random_element()`, `point_order i ab` the order
of the cofactor-cleared random point found on the curve with coefficients
`ab` in attempt `i`, and `result_point i` that point. -/

inductive CMErr where
  | nonPrimeP
  | nonPrimeN
  | hasseViolated
  | noRoot
  deriving DecidableEq

structure CMApi where
  any_root : ℤ → ℤ → Option ℤ
  rand_c : ℕ → ℤ
  point_order : ℕ → ℤ × ℤ → ℤ
  result_point : ℕ → ℤ × ℤ

/-- Modular inverse used to embed the `F_p` divisions of the curve
construction at integer level. -/
def invMod (a p : ℤ) : ℤ := (Int.gcdA a p).emod p

/-- The curve construction of `gen_curve` (lines 79–86) over `F_p`,
with field elements as canonical representatives. -/
def cm_curve_from_j_int (p j0 c : ℤ) : ℤ × ℤ :=
  if j0.emod p = 0 then (0, c)
  else if (j0 - 1728).emod p = 0 then (c, 0)
  else ((3 * c ^ 2 * j0 * invMod (1728 - j0) p).emod p,
        (2 * c ^ 3 * j0 * invMod (1728 - j0) p).emod p)

/-- The `while True` twist-search loop of `gen_curve` (steps f–i): draw
`c`, skip `c = 0`, build the curve, and return it with the
cofactor-cleared point when that point's order is prime. -/
def cm_cloop (api : CMApi) (p r j0 : ℤ) : ℕ → ℕ → Option ((ℤ × ℤ) × (ℤ × ℤ))
  | 0, _ => none
  | fuel + 1, i =>
    if (api.rand_c i).emod p = 0 then cm_cloop api p r j0 fuel (i + 1)
    else
      if intPrime (api.point_order i (cm_curve_from_j_int p j0 ((api.rand_c i).emod p))) then
        some (cm_curve_from_j_int p j0 ((api.rand_c i).emod p), api.result_point i)
      else cm_cloop api p r j0 fuel (i + 1)

/-- `gen_curve(p, n, r, D)` of `WIP/complex_multiplication.py`: the three
precondition `assert`s (in source order), then the search. -/
def cm_gen_curve (api : CMApi) (p n r D : ℤ) (fuel : ℕ) :
    Except CMErr (Option ((ℤ × ℤ) × (ℤ × ℤ))) :=
  if intPrime p = false then .error .nonPrimeP
  else if intPrime n = false then .error .nonPrimeN
  else if ¬ ((r * n - (p + 1)) ^ 2 ≤ 4 * p) then .error .hasseViolated
  else
    match api.any_root D p with
    | none => .error .noRoot
    | some j0 => .ok (cm_cloop api p r j0 fuel 0)

/-- C8: confirmed.  `gen_curve(p, n, r)` aborts with one of the three
precondition failures exactly when `p` is not prime, `n` is not prime, or
the caller-supplied triple violates the Hasse bound
`|r·n - (p+1)| ≤ 2√p`; the checks fire in source order, before any of the
search (whatever the library capabilities return), and when all three
preconditions hold none of them aborts the call. -/
theorem cm_gen_curve_res_p (api : CMApi) (p n r D : ℤ) (fuel : ℕ)
    (hp : intPrime p = false) :
    cm_gen_curve api p n r D fuel = .error .nonPrimeP := by
  unfold cm_gen_curve
  rw [hp, if_pos rfl]

theorem cm_gen_curve_res_n (api : CMApi) (p n r D : ℤ) (fuel : ℕ)
    (hp : intPrime p = true) (hn : intPrime n = false) :
    cm_gen_curve api p n r D fuel = .error .nonPrimeN := by
  unfold cm_gen_curve
  rw [hp, hn, if_neg (by decide), if_pos rfl]

theorem cm_gen_curve_res_h (api : CMApi) (p n r D : ℤ) (fuel : ℕ)
    (hp : intPrime p = true) (hn : intPrime n = true)
    (hh : ¬((r * n - (p + 1)) ^ 2 ≤ 4 * p)) :
    cm_gen_curve api p n r D fuel = .error .hasseViolated := by
  unfold cm_gen_curve
  rw [hp, hn, if_neg (by decide), if_neg (by decide), if_pos hh]

theorem cm_gen_curve_res_pre (api : CMApi) (p n r D : ℤ) (fuel : ℕ)
    (hp : intPrime p = true) (hn : intPrime n = true)
    (hh : (r * n - (p + 1)) ^ 2 ≤ 4 * p) :
    cm_gen_curve api p n r D fuel = .error .noRoot ∨
    ∃ v, cm_gen_curve api p n r D fuel = .ok v := by
  unfold cm_gen_curve
  rw [hp, hn, if_neg (by decide), if_neg (by decide), if_neg (not_not_intro hh)]
  cases api.any_root D p with
  | none => exact Or.inl rfl
  | some j0 => exact Or.inr ⟨_, rfl⟩

/-- C8: confirmed.  `gen_curve(p, n, r)` aborts with one of the three
precondition failures exactly when `p` is not prime, `n` is not prime, or
the caller-supplied triple violates the Hasse bound
`|r·n - (p+1)| ≤ 2√p`; the checks fire in source order, before any of the
search (whatever the library capabilities return), and when all three
preconditions hold none of them aborts the call. -/
theorem cm_gen_curve_checks (api : CMApi) (p n r D : ℤ) (fuel : ℕ) :
    ((cm_gen_curve api p n r D fuel = .error .nonPrimeP ∨
      cm_gen_curve api p n r D fuel = .error .nonPrimeN ∨
      cm_gen_curve api p n r D fuel = .error .hasseViolated)
      ↔ ¬(intPrime p = true ∧ intPrime n = true ∧ (r * n - (p + 1)) ^ 2 ≤ 4 * p)) ∧
    (intPrime p = false → cm_gen_curve api p n r D fuel = .error .nonPrimeP) ∧
    (intPrime p = true → intPrime n = false →
      cm_gen_curve api p n r D fuel = .error .nonPrimeN) ∧
    (intPrime p = true → intPrime n = true → ¬((r * n - (p + 1)) ^ 2 ≤ 4 * p) →
      cm_gen_curve api p n r D fuel = .error .hasseViolated) := by
  refine ⟨⟨fun hdis hpre => ?_, fun hnpre => ?_⟩,
    cm_gen_curve_res_p api p n r D fuel,
    cm_gen_curve_res_n api p n r D fuel,
    cm_gen_curve_res_h api p n r D fuel⟩
  · obtain ⟨hp, hn, hh⟩ := hpre
    rcases cm_gen_curve_res_pre api p n r D fuel hp hn hh with h | ⟨v, h⟩ <;>
      rw [h] at hdis <;> rcases hdis with h1 | h1 | h1 <;> simp at h1
  · by_cases hp : intPrime p = true
    · by_cases hn : intPrime n = true
      · by_cases hh : (r * n - (p + 1)) ^ 2 ≤ 4 * p
        · exact absurd ⟨hp, hn, hh⟩ hnpre
        · exact Or.inr (Or.inr (cm_gen_curve_res_h api p n r D fuel hp hn hh))
      · exact Or.inr (Or.inl (cm_gen_curve_res_n api p n r D fuel hp
          (by revert hn; cases intPrime n <;> simp)))
    · exact Or.inl (cm_gen_curve_res_p api p n r D fuel
        (by revert hp; cases intPrime p <;> simp))

/-- A concrete instantiation of the CM capabilities, for witnesses. -/
def trivialCMApi : CMApi :=
  ⟨fun _ _ => none, fun _ => 0, fun _ _ => 0, fun _ => (0, 0)⟩

/-- Witness for C8 at `p = 4` (composite), `n = 3`, `r = 1`: the call
aborts with the non-prime-`p` failure. -/
theorem cm_gen_curve_checks_witness :
    cm_gen_curve trivialCMApi 4 3 1 1 0 = .error .nonPrimeP :=
  (cm_gen_curve_checks trivialCMApi 4 3 1 1 0).2.1 (by decide)

/-! ## Cocks–Pinch element of exact order (`cocks_pinch.py`,
`find_element_of_order`) -/

/-- Sage `power_mod(a, e, n)`. -/
def power_mod (a e n : ℕ) : ℕ := a ^ e % n

/-- The loop of the inner helper `order(h, k, p)` of
`find_element_of_order`: `s` remaining iterations of `for _ in
range(1, k)`, current `g`, accumulated `bool`; each iteration requires
`g ≠ 1` and updates `g ← g·h mod p`; the final step requires `g = 1`.
The first comparison is against the unreduced initial `g = h`, exactly as
in the source. -/
def order_go (h n : ℕ) : ℕ → ℕ → Bool → Bool
  | 0, g, b => b && (g == 1)
  | s + 1, g, b => order_go h n s ((g * h) % n) (b && !(g == 1))

/-- The inner helper `order(h, k, p)` of `find_element_of_order`. -/
def order_check (h k p : ℕ) : Bool := order_go h p (k - 1) h true

/-- The `while not order(h, B, n)` loop of `find_element_of_order`,
driven by the stream of `randint(2, n-1)` draws (each draw `s` yields the
candidate `power_mod(s, (n-1)//B, n)`); an exhausted stream is `none`. -/
def feo_loop (B n : ℕ) : List ℕ → ℕ → Option ℕ
  | [], h => if order_check h B n then some h else none
  | s :: rest, h =>
    if order_check h B n then some h
    else feo_loop B n rest (power_mod s ((n - 1) / B) n)

/-- `find_element_of_order(B, n)` of `cocks_pinch.py`: asserts
`n % B == 1` (`none` models the `AssertionError`), then searches starting
from `h = 0`. -/
def find_element_of_order (B n : ℕ) (stream : List ℕ) : Option ℕ :=
  if n % B = 1 then feo_loop B n stream 0 else none

theorem order_go_false (h n : ℕ) : ∀ s g, order_go h n s g false = false := by
  intro s
  induction s with
  | zero => intro g; rfl
  | succ k ih =>
    intro g
    rw [order_go, Bool.false_and]
    exact ih _

theorem order_go_spec (h n : ℕ) : ∀ s g, order_go h n s g true = true →
    (s = 0 → g = 1) ∧
    (1 ≤ s → g ≠ 1 ∧ (g * h ^ s) % n = 1 ∧
      ∀ i, 1 ≤ i → i < s → (g * h ^ i) % n ≠ 1) := by
  intro s
  induction s with
  | zero =>
    intro g hrun
    refine ⟨fun _ => ?_, fun hc => absurd hc (by norm_num)⟩
    rw [order_go, Bool.true_and] at hrun
    exact eq_of_beq hrun
  | succ k ih =>
    intro g hrun
    rw [order_go] at hrun
    by_cases hg : g = 1
    · exfalso
      have hb : (true && !(g == 1)) = false := by simp [hg]
      rw [hb, order_go_false] at hrun
      exact Bool.noConfusion hrun
    · have hb : (true && !(g == 1)) = true := by simp [hg]
      rw [hb] at hrun
      have IH := ih ((g * h) % n) hrun
      refine ⟨fun hc => absurd hc (Nat.succ_ne_zero k), fun _ => ⟨hg, ?_, ?_⟩⟩
      · rcases Nat.eq_zero_or_pos k with hk | hk
        · subst hk
          have h1 : (g * h) % n = 1 := IH.1 rfl
          rw [pow_one]
          exact h1
        · have h1 : (((g * h) % n) * h ^ k) % n = 1 := (IH.2 hk).2.1
          have h2 : (((g * h) % n) * h ^ k) % n = (g * h ^ (k + 1)) % n := by
            rw [Nat.mod_mul_mod]
            congr 1
            rw [mul_assoc, ← pow_succ']
          rw [← h2]
          exact h1
      · intro i hi1 hi2
        rcases Nat.lt_or_ge i 2 with hil | hig
        · have hieq : i = 1 := by omega
          subst hieq
          have hk : 1 ≤ k := by omega
          rw [pow_one]
          exact (IH.2 hk).1
        · have hk : 1 ≤ k := by omega
          have h3 := (IH.2 hk).2.2 (i - 1) (by omega) (by omega)
          intro hcon
          apply h3
          rw [Nat.mod_mul_mod]
          have he : g * h * h ^ (i - 1) = g * h ^ i := by
            rw [mul_assoc, ← pow_succ']
            congr 2
            omega
          rw [he]
          exact hcon

theorem order_check_spec (B n h : ℕ) (hn : 2 ≤ n) (hlt : h < n)
    (hchk : order_check h B n = true) :
    h ^ B % n = 1 ∧ ∀ j, 1 ≤ j → j < B → h ^ j % n ≠ 1 := by
  rw [order_check] at hchk
  have HS := order_go_spec h n (B - 1) h hchk
  rcases Nat.lt_or_ge B 2 with hB | hB
  · have hh1 : h = 1 := HS.1 (by omega)
    subst hh1
    refine ⟨?_, fun j hj1 hj2 => absurd hj2 (by omega)⟩
    rw [one_pow]
    exact Nat.mod_eq_of_lt (by omega)
  · have hs : 1 ≤ B - 1 := by omega
    obtain ⟨hgne, hfin, hmid⟩ := HS.2 hs
    constructor
    · have he : h * h ^ (B - 1) = h ^ B := by
        rw [← pow_succ']
        congr 1
        omega
      rw [← he]
      exact hfin
    · intro j hj1 hj2
      rcases Nat.lt_or_ge j 2 with hjl | hjg
      · have hjeq : j = 1 := by omega
        subst hjeq
        rw [pow_one, Nat.mod_eq_of_lt hlt]
        exact hgne
      · have h3 := hmid (j - 1) (by omega) (by omega)
        intro hcon
        apply h3
        have he : h * h ^ (j - 1) = h ^ j := by
          rw [← pow_succ']
          congr 1
          omega
        rw [he]
        exact hcon

theorem feo_loop_some (B n : ℕ) (hn : 1 ≤ n) :
    ∀ (stream : List ℕ) (h hh : ℕ),
    (h = 0 ∨ h < n) → feo_loop B n stream h = some hh →
    order_check hh B n = true ∧ (hh = 0 ∨ hh < n) := by
  intro stream
  induction stream with
  | nil =>
    intro h hh hinv hres
    rw [feo_loop] at hres
    by_cases hc : order_check h B n = true
    · rw [if_pos hc] at hres
      cases hres
      exact ⟨hc, hinv⟩
    · rw [if_neg hc] at hres
      cases hres
  | cons s rest ih =>
    intro h hh hinv hres
    rw [feo_loop] at hres
    by_cases hc : order_check h B n = true
    · rw [if_pos hc] at hres
      cases hres
      exact ⟨hc, hinv⟩
    · rw [if_neg hc] at hres
      exact ih _ hh (Or.inr (Nat.mod_lt _ hn)) hres

/-- C10: confirmed.  Whenever `find_element_of_order(B, n)` returns an
element `h`, that element has multiplicative order exactly `B` modulo
`n`: `h^B ≡ 1 (mod n)` and `h^j ≢ 1 (mod n)` for every `1 ≤ j < B` —
the returned value passed the inner `order` check, which verifies
precisely these conditions. -/
theorem find_element_of_order_exact_order (B n : ℕ) (stream : List ℕ) (h : ℕ)
    (hres : find_element_of_order B n stream = some h) :
    h ^ B % n = 1 ∧ ∀ j, 1 ≤ j → j < B → h ^ j % n ≠ 1 := by
  rw [find_element_of_order] at hres
  by_cases hmod : n % B = 1
  · rw [if_pos hmod] at hres
    have hn1 : 1 ≤ n := by
      rcases Nat.eq_zero_or_pos n with h0 | h1
      · subst h0
        rw [Nat.zero_mod] at hmod
        exact absurd hmod (by norm_num)
      · exact h1
    obtain ⟨hchk, hinv⟩ := feo_loop_some B n hn1 stream 0 h (Or.inl rfl) hres
    rcases Nat.lt_or_ge n 2 with hn2 | hn2
    · exfalso
      have hne : n = 1 := by omega
      subst hne
      have hh0 : h = 0 := by
        rcases hinv with h0 | h1
        · exact h0
        · omega
      subst hh0
      have hfalse : ∀ s, order_go 0 1 s 0 true = false := by
        intro s
        induction s with
        | zero => rfl
        | succ k ihs =>
          rw [order_go]
          simpa using ihs
      rw [order_check, hfalse] at hchk
      exact Bool.noConfusion hchk
    · have hlt : h < n := by
        rcases hinv with h0 | h1
        · omega
        · exact h1
      exact order_check_spec B n h hn2 hlt hchk
  · rw [if_neg hmod] at hres
    cases hres

/-- Witness for C10: `find_element_of_order(2, 5)` with draw `2` returns
`h = 4 = 2^((5-1)/2) mod 5`, of exact order `2` modulo `5`. -/
theorem find_element_of_order_exact_order_witness :
    find_element_of_order 2 5 [2] = some 4 ∧
      (4 ^ 2 % 5 = 1 ∧ ∀ j, 1 ≤ j → j < 2 → 4 ^ j % 5 ≠ 1) := by
  have hres : find_element_of_order 2 5 [2] = some 4 := by decide
  exact ⟨hres, find_element_of_order_exact_order 2 5 [2] 4 hres⟩

/-! ## Barreto–Naehrig generator (`barreto_naehrig.py`)

`gen_curve(m, p_max)` is a Python generator.  The inner scan advances `u`
while `p.bit_length() <= p_max`, looking for a prime pair
`p = P(∓u), n = p + 1 - t`; on exhaustion without any success it executes
`return None`, which for a generator simply ends the iteration
(`StopIteration`) — the `for` loop of `__main__` then terminates without
ever seeing a `None` element, so its `if curve is None` diagnostic branch
is unreachable and the script exits with status `0` printing nothing.
That dead branch therefore does not appear as a reachable case of the
embedded `bn_main`; the `diagnostic` component of its result is
identically `false`.

After a success, `found_curve` is never reset, so a later exhausted scan
falls through with a stale composite `p` and `GF(p)` raises (`crashed`).
The curve/point construction (steps f–k) goes through the Sage library,
modelled by capabilities: `sqrt_mod p a` is `GF(p)(a).sqrt()`,
`nG_is_zero p b n y0` decides `n·G == O` for `G = (1, y0)` on
`y² = x³ + b`, and `curve_order p b` is `E.order()` for the
embedding-degree assertion.  The seed
`u = int(-(2**(m/4))/sqrt(6))` equals `-⌊2^(m/4)/√6⌋ = -⌊⌊√(4^(m/4)·6)⌋/6⌋`
when `4 ∣ m` (the float `2**(m/4)` is exact there). -/

/-- The BN family polynomial `P(u) = 36u⁴ + 36u³ + 24u² + 6u + 1`. -/
def bn_P (u : ℤ) : ℤ := 36 * u ^ 4 + 36 * u ^ 3 + 24 * u ^ 2 + 6 * u + 1

/-- The initial `u = int(-(2**(m/4))/sqrt(6))` of `gen_curve`, for
`4 ∣ m`. -/
def bn_u_init (m : ℕ) : ℤ := -((isqrtNat (4 ^ (m / 4) * 6) / 6 : ℕ) : ℤ)

/-- Sage capabilities used by the BN curve construction. -/
structure BNApi where
  sqrt_mod : ℕ → ℕ → ℕ
  nG_is_zero : ℕ → ℕ → ℤ → ℕ → Bool
  curve_order : ℕ → ℕ → ℤ

/-- Outcome of a generator run: clean end of iteration (`return` in the
generator), an uncaught exception, or fuel exhaustion. -/
inductive GenOutcome where
  | ended
  | crashed
  | fuelOut

/-- The `for b in itertools.count(1)` loop of `gen_curve` (steps g–k):
skip `b` unless `kronecker(b+1, p) = 1`; with `y0 = √(b+1)` and
`G = (1, y0)`, stop at the first `b` with `n·G = O`. -/
def bn_bloop (api : BNApi) (p n : ℤ) : ℕ → ℕ → Option (ℕ × ℕ)
  | 0, _ => none
  | fuel + 1, b =>
    if kron ((b : ℤ) + 1) p ≠ 1 then bn_bloop api p n fuel (b + 1)
    else
      if api.nG_is_zero p.toNat b n (api.sqrt_mod p.toNat (b + 1)) then
        some (b, api.sqrt_mod p.toNat (b + 1))
      else bn_bloop api p n fuel (b + 1)

/-- The inner `while p.bit_length() <= p_max` scan of `gen_curve` (steps
c.1–c.6): try `p = P(-u)` then `p = P(u)` with `t = 6u² + 1`,
`n = p + 1 - t`; advance `u` on failure.  Returns the found-flag together
with the current `(u, p, n)` on loop exit. -/
def bn_inner (p_max : ℕ) : ℕ → ℤ → ℤ → ℤ → Option (Bool × ℤ × ℤ × ℤ)
  | 0, _, _, _ => none
  | fuel + 1, u, p, n =>
    if bitLength p ≤ p_max then
      if intPrime (bn_P (-u)) && intPrime (bn_P (-u) + 1 - (6 * u ^ 2 + 1)) then
        some (true, u, bn_P (-u), bn_P (-u) + 1 - (6 * u ^ 2 + 1))
      else if intPrime (bn_P u) && intPrime (bn_P u + 1 - (6 * u ^ 2 + 1)) then
        some (true, u, bn_P u, bn_P u + 1 - (6 * u ^ 2 + 1))
      else bn_inner p_max fuel (u + 1) (bn_P u) (bn_P u + 1 - (6 * u ^ 2 + 1))
    else some (false, u, p, n)

/-- The outer `while True` loop of `gen_curve`: scan; if `found_curve` is
still false, end the generator; otherwise (`found_curve` is never reset
in the source) build the curve — over `GF(p)`, which raises for the
stale composite `p` of an exhausted scan after an earlier success —
check the embedding-degree assertion, advance `u`, and yield
`(p, E, n, G)` with `E : y² = x³ + b` and `G = (1, y0)`. -/
def bn_gen_loop (api : BNApi) (p_max : ℕ) :
    ℕ → ℤ → ℤ → ℤ → Bool → List (ℤ × (ℤ × ℤ) × ℤ × (ℤ × ℤ)) →
    List (ℤ × (ℤ × ℤ) × ℤ × (ℤ × ℤ)) × GenOutcome
  | 0, _, _, _, _, acc => (acc.reverse, .fuelOut)
  | fuel + 1, u, p, n, found, acc =>
    match bn_inner p_max fuel u p n with
    | none => (acc.reverse, .fuelOut)
    | some (nf, u2, p2, n2) =>
      if !(found || nf) then (acc.reverse, .ended)
      else if !intPrime p2 then (acc.reverse, .crashed)
      else
        match bn_bloop api p2 n2 fuel 1 with
        | none => (acc.reverse, .fuelOut)
        | some (b, y0) =>
          if !is_embedding_degree ⟨p2, api.curve_order p2.toNat b⟩ 12 then
            (acc.reverse, .crashed)
          else
            bn_gen_loop api p_max fuel (u2 + 1) p2 n2 true
              ((p2, (0, (b : ℤ)), n2, (1, (y0 : ℤ))) :: acc)

/-- `gen_curve(m, p_max)` of `barreto_naehrig.py`: the list of yielded
curves and how the generator run ended.  (`n` is first assigned inside
the scan; the initial third component is a placeholder never read before
assignment.) -/
def bn_gen_curve (api : BNApi) (m p_max fuel : ℕ) :
    List (ℤ × (ℤ × ℤ) × ℤ × (ℤ × ℤ)) × GenOutcome :=
  bn_gen_loop api p_max fuel (bn_u_init m) (bn_P (-(bn_u_init m))) 0 false []

/-- The `__main__` block of `barreto_naehrig.py`: iterate the generator,
printing up to `num_curves` curves.  Components of the result: the curves
printed, whether the `'No curve found with given parameters!'` diagnostic
was printed (its guard `curve is None` can never hold — a generator's
`return` ends the `for` loop instead of yielding `None` — so this is
identically `false`), and the exit status (`1` only for an uncaught
exception traceback). -/
def bn_main (api : BNApi) (num_curves m p_max fuel : ℕ) :
    List (ℤ × (ℤ × ℤ) × ℤ × (ℤ × ℤ)) × Bool × ℕ :=
  ((bn_gen_curve api m p_max fuel).1.take num_curves, false,
    match (bn_gen_curve api m p_max fuel).2 with
    | .crashed => 1
    | _ => 0)

theorem bn_gen_loop_exhaust_no_success (api : BNApi) (p_max fuel : ℕ) (u p n : ℤ)
    (acc : List (ℤ × (ℤ × ℤ) × ℤ × (ℤ × ℤ)))
    (hbit : ¬ (bitLength p ≤ p_max)) :
    bn_gen_loop api p_max (fuel + 2) u p n false acc = (acc.reverse, .ended) := by
  show bn_gen_loop api p_max (fuel + 1 + 1) u p n false acc = (acc.reverse, .ended)
  rw [bn_gen_loop, bn_inner, if_neg hbit]
  rfl

/-- C6: refuted by the code (the claimed diagnostic-and-nonzero-exit
behaviour does not happen).  With `m = 4`, `p_max = 0` the scan is
exhausted immediately (`u = 0`, `p = P(0) = 1`, `bit_length(1) = 1 > 0`)
without a prime pair: the generator yields no curves and ends cleanly,
and `__main__` prints nothing — in particular not the `'No curve
found with given parameters!'` diagnostic, whose `curve is None` guard is
dead code — and exits with status `0`, for every curve-construction
capability and any amount of fuel. -/
theorem bn_gen_curve_silent_exhaustion (api : BNApi) (fuel : ℕ) :
    bn_gen_curve api 4 0 (fuel + 2) = ([], GenOutcome.ended) ∧
    bn_main api 10000 4 0 (fuel + 2) = ([], false, 0) := by
  have hu : bn_u_init 4 = 0 := by decide
  have hmain : bn_gen_curve api 4 0 (fuel + 2) = ([], GenOutcome.ended) := by
    unfold bn_gen_curve
    rw [hu]
    have hp : bn_P (-(0 : ℤ)) = 1 := by decide
    rw [hp]
    exact bn_gen_loop_exhaust_no_success api 0 fuel 0 1 0 [] (by decide)
  refine ⟨hmain, ?_⟩
  unfold bn_main
  rw [hmain]
  rfl

end PairingFriendly
